import Mathlib

/-!
Verification development for the `bigip_asm_policy_import` Ansible module
(`src/ansible_collections/f5networks/f5_bigip/plugins/modules/bigip_asm_policy_import.py`).

The module orchestrates a linear sequence of REST calls against a BIG-IP
device: existence check of the named ASM policy, optional file upload,
creation of an import task, and a polling loop on the task status.  We embed
the `ModuleManager` methods as pure Lean functions over an explicit `Device`
value that fixes the responses the device would give, and we record every
outward call (GET, upload, POST, sleep) in an explicit effect trace so that
frame properties ("no mutating call") become provable statements.
-/

namespace BigipAsm

/-- The HTTP response codes the module accepts as success: the source checks
`response[...] not in [200, 201, 202]` at every call site. -/
def okCodes : List Nat := [200, 201, 202]

/-- One element of the `items` array of the policies list response; the module
only ever reads its `selfLink`. -/
structure PolicyItem where
  selfLink : String
deriving Repr, DecidableEq

/-- Response to `GET /mgmt/tm/asm/policies/?$filter=...` as the module reads
it: the code, whether the body has an `items` key, the items themselves, and
the raw body (used verbatim as the error message on a bad code). -/
structure ListResponse where
  code : Nat
  hasItems : Bool
  items : List PolicyItem
  raw : String
deriving Repr, DecidableEq

/-- Response to `POST /mgmt/tm/asm/tasks/import-policy/`: code, the task `id`
read from the body, and the raw body. -/
structure PostResponse where
  code : Nat
  id : String
  raw : String
deriving Repr, DecidableEq

/-- Response to one `GET /mgmt/tm/asm/tasks/import-policy/{id}` poll. -/
structure PollResponse where
  code : Nat
  status : String
  raw : String
deriving Repr, DecidableEq

/-- Response to the file-transfer upload performed by the connection plugin. -/
structure UploadResponse where
  code : Nat
  raw : String
deriving Repr, DecidableEq

/-- The device as seen by one module run: the (stable) answer to the policies
list GET, the upload result, the import-task POST result, and the successive
poll responses. -/
structure Device where
  policies : ListResponse
  upload : UploadResponse
  taskPost : PostResponse
  polls : List PollResponse
deriving Repr, DecidableEq

/-- The module parameters (`ModuleParameters._values`), after Ansible argument
parsing: `name` and `partition` are always present (required / defaulted),
`policy_type` has default `"security"`, `force` has default `False` but is set
to `None` by `policy_import` when the policy is absent, hence `Option Bool`. -/
structure Want where
  name : String
  partition : String
  policy_type : String
  retain_inheritance_settings : Option Bool
  parent_policy : Option String
  base64 : Option Bool
  inline : Option String
  encoding : Option String
  source : Option String
  force : Option Bool
deriving Repr, DecidableEq

/-- The error taxonomy: `validation` and `remote` carry the message the
`F5ModuleError` is raised with; `uploadFailed` and `taskFailed` are the two
fixed-message raises of the module; `pyError` stands for a raw Python runtime
error (KeyError / IndexError / TypeError) on malformed input. -/
inductive ImportError where
  | validation (msg : String)
  | remote (raw : String)
  | uploadFailed
  | taskFailed
  | pyError (msg : String)
deriving Repr, DecidableEq

/-- The message carried by each error, as `str(ex)` would render it. -/
def ImportError.message : ImportError → String
  | .validation m => m
  | .remote r => r
  | .uploadFailed => "Failed to upload the file."
  | .taskFailed => "Failed to import ASM policy."
  | .pyError m => m

/-- The value of the `parentPolicy` payload entry: the module builds
`dict(fullPath=fq_name(partition, parent_policy))`. -/
structure ParentRef where
  fullPath : String
deriving Repr, DecidableEq

/-- The JSON body of the import-task POST.  A field is `none` exactly when the
corresponding key is absent from the Python dict (`api_params` drops `None`
values; `pop('name')` removes the key). -/
structure Payload where
  file : Option String
  name : Option String
  policyType : Option String
  retainInheritanceSettings : Option Bool
  parentPolicy : Option ParentRef
  isBase64 : Option Bool
  applicationLanguage : Option String
  filename : Option String
  policyReference : Option String
deriving Repr, DecidableEq

/-- One outward call performed by the module, in program order. -/
inductive Effect where
  | getPolicies
  | uploadFile (name : String)
  | postImportTask (payload : Payload)
  | getTaskStatus
  | sleep (seconds : Nat)
deriving Repr, DecidableEq

/-- The mutable `self.changes` dict (`UsableChanges`), restricted to the
`returnables` keys; `none` means the key is absent. -/
structure Changes where
  name : Option String
  inline : Option String
  source : Option String
  force : Option Bool
  policy_type : Option String
  retain_inheritance_settings : Option Bool
  parent_policy : Option ParentRef
  base64 : Option Bool
  encoding : Option String
deriving Repr, DecidableEq

/-- The fresh `UsableChanges()` the manager starts with. -/
def emptyChanges : Changes :=
  ⟨none, none, none, none, none, none, none, none, none⟩

/-- The dictionary returned by `ReportableChanges.to_return()` plus the
`changed` flag `exec_module` adds to the result. -/
structure Report where
  name : Option String
  inline : Option String
  source : Option String
  force : Option Bool
  policy_type : Option String
  retain_inheritance_settings : Option String
  parent_policy : Option String
  base64 : Option String
  encoding : Option String
  changed : Bool
deriving Repr, DecidableEq

/-- Modelled from the spec: `fq_name` of `module_utils/common` (not under
`src/`); it prefixes a name with `/partition/` unless already fully
qualified, as in the documented sample `/Common/parent`. -/
def fq_name (partition value : String) : String :=
  if value.startsWith "/" then value else "/" ++ partition ++ "/" ++ value

/-- Modelled from the spec: `flatten_boolean` of `module_utils/common` (not
under `src/`); it normalizes a boolean to the strings `yes` / `no` and passes
`None` through. -/
def flatten_boolean : Option Bool → Option String
  | some true => some "yes"
  | some false => some "no"
  | none => none

/-- Python truthiness of an optional string (`if self.want.inline:`): absent
and empty strings are falsy. -/
def truthyStr : Option String → Bool
  | none => false
  | some s => !s.isEmpty

/-- Python truthiness of the `force` value (`if self.want.force:`): only a
present `True` is truthy (`None` and `False` are falsy). -/
def truthyOpt : Option Bool → Bool
  | some true => true
  | _ => false

/-- `os.path.split(s)[1]`: the part of the path after the last slash. -/
def osPathBasename (s : String) : String :=
  (s.splitOn "/").getLastD ""

/-- The validation message raised by `ModuleParameters.parent_policy`. -/
def parentPolicyErrMsg : String :=
  "The \x27policy_type\x27 cannot be \x27parent\x27 if \x27parent_policy\x27 is defined."

/-- `ModuleParameters.parent_policy` (source lines 263-272): `None` passes
through; a set value with `policy_type == 'parent'` raises `F5ModuleError`;
otherwise the fully-qualified reference dict is built. -/
def ModuleParameters.parent_policy (w : Want) : Except ImportError (Option ParentRef) :=
  match w.parent_policy with
  | none => .ok none
  | some p =>
    if w.policy_type = "parent" then .error (.validation parentPolicyErrMsg)
    else .ok (some ⟨fq_name w.partition p⟩)

/-- `ModuleParameters.base64`: `flatten_boolean` then back to a bool, `None`
otherwise (implicit Python `return None`). -/
def ModuleParameters.base64 (w : Want) : Option Bool :=
  match flatten_boolean w.base64 with
  | some "yes" => some true
  | some "no" => some false
  | _ => none

/-- `ModuleParameters.retain_inheritance_settings`: same normalization as
`base64`. -/
def ModuleParameters.retain_inheritance_settings (w : Want) : Option Bool :=
  match flatten_boolean w.retain_inheritance_settings with
  | some "yes" => some true
  | some "no" => some false
  | _ => none

/-- `ModuleManager._set_changed_options`: copies every non-`None` returnable
of `want` into a fresh `UsableChanges`; evaluating the `parent_policy`
property may raise. -/
def setChangedOptions (w : Want) : Except ImportError Changes :=
  match ModuleParameters.parent_policy w with
  | .error e => .error e
  | .ok pp =>
    .ok ⟨some w.name, w.inline, w.source, w.force, some w.policy_type,
      ModuleParameters.retain_inheritance_settings w, pp,
      ModuleParameters.base64 w, w.encoding⟩

/-- `ModuleManager._clear_changes`: like `_set_changed_options` but drops the
five redundant keys (`policy_type`, `retain_inheritance_settings`,
`parent_policy`, `base64`, `encoding`); it still evaluates every `want`
property, so the `parent_policy` validation can fire here too. -/
def clearChanges (w : Want) : Except ImportError Changes :=
  match ModuleParameters.parent_policy w with
  | .error e => .error e
  | .ok _ =>
    .ok ⟨some w.name, w.inline, w.source, w.force, none, none, none, none, none⟩

/-- Modelled from the spec: `api_params` of `AnsibleF5Parameters`
(`module_utils/common`, not under `src/`).  Per the spec it builds the wire
payload by the fixed translation table (`api_map` over `api_attributes`:
`file` ← `inline`, `policyType` ← `policy_type`, `retainInheritanceSettings`
← `retain_inheritance_settings`, `parentPolicy` ← `parent_policy`, `isBase64`
← `base64`, `applicationLanguage` ← `encoding`, `name` ← `name`), dropping
absent values; `filename` and `policyReference` are not in `api_attributes`
and are only added later by `inline_import`. -/
def Changes.api_params (c : Changes) : Payload :=
  ⟨c.inline, c.name, c.policy_type, c.retain_inheritance_settings,
    c.parent_policy, c.base64, c.encoding, none, none⟩

/-- `ModuleManager.exists` (source lines 423-435): a code outside
`[200, 201, 202]` raises with the raw body; otherwise the result is whether
the body has a non-empty `items` list. -/
def ModuleManager.exists_ (dev : Device) : Except ImportError Bool :=
  if dev.policies.code ∈ okCodes then
    if dev.policies.hasItems = true ∧ dev.policies.items ≠ [] then .ok true
    else .ok false
  else .error (.remote dev.policies.raw)

/-- `ModuleManager._get_policy_link` (source lines 447-458): same GET and code
check as `exists`, then `contents['items'][0]['selfLink']` (a missing key or
empty list would be a raw Python error). -/
def getPolicyLink (dev : Device) : Except ImportError String :=
  if dev.policies.code ∈ okCodes then
    if dev.policies.hasItems = true then
      match dev.policies.items.head? with
      | some item => .ok item.selfLink
      | none => .error (.pyError "IndexError")
    else .error (.pyError "KeyError")
  else .error (.remote dev.policies.raw)

/-- `ModuleManager.upload_file_to_device` (source lines 437-445): the plugin
upload raises `F5ModuleError` on a failed transfer (modelled from the spec as
a code outside the accepted set), and the module catches it and re-raises
with the fixed message `Failed to upload the file.` -- the device body is
discarded. -/
def upload_file_to_device (dev : Device) : Except ImportError Unit :=
  if dev.upload.code ∈ okCodes then .ok ()
  else .error .uploadFailed

/-- The POST of `inline_import`: a code outside `[200, 201, 202]` raises with
the raw body, otherwise the task id is read from the body. -/
def postTask (dev : Device) : Except ImportError String :=
  if dev.taskPost.code ∈ okCodes then .ok dev.taskPost.id
  else .error (.remote dev.taskPost.raw)

/-- `ModuleManager.inline_import` (source lines 460-477): builds the payload
from `self.changes.api_params()`, overwrites `name` with the fully-qualified
name, adds `filename` when a source path is set, and on a truthy `force`
fetches the existing policy link, stores it under `policyReference` and pops
`name`; finally POSTs.  The returned effect list records the calls made. -/
def inline_import (dev : Device) (w : Want) (changes : Changes) :
    Except ImportError String × List Effect :=
  let params0 := changes.api_params
  let params1 := { params0 with name := some (fq_name w.partition w.name) }
  let params2 :=
    if truthyStr w.source then
      { params1 with filename := some (osPathBasename (w.source.getD "")) }
    else params1
  if truthyOpt w.force then
    match getPolicyLink dev with
    | .error e => (.error e, [Effect.getPolicies])
    | .ok link =>
      let params3 := { params2 with policyReference := some link, name := none }
      (postTask dev, [Effect.getPolicies, Effect.postImportTask params3])
  else
    (postTask dev, [Effect.postImportTask params2])

/-- Result of the polling loop of `wait_for_task`: `ranOut` means the loop
would keep polling past the supplied responses (it never saw a terminal
status or a bad code). -/
inductive WaitOutcome where
  | completed
  | taskFailed
  | badCode (raw : String)
  | ranOut
deriving Repr, DecidableEq

/-- `ModuleManager.wait_for_task` (source lines 479-497): each iteration GETs
the task, raises on a code outside `[200, 201, 202]`, breaks on status
`COMPLETED` or `FAILURE`, and otherwise sleeps exactly one second and loops;
after the loop `FAILURE` raises `Failed to import ASM policy.` -/
def wait_for_task : List PollResponse → WaitOutcome × List Effect
  | [] => (.ranOut, [])
  | r :: rest =>
    if r.code ∈ okCodes then
      if r.status = "COMPLETED" then (.completed, [Effect.getTaskStatus])
      else if r.status = "FAILURE" then (.taskFailed, [Effect.getTaskStatus])
      else
        let next := wait_for_task rest
        (next.1, Effect.getTaskStatus :: Effect.sleep 1 :: next.2)
    else (.badCode r.raw, [Effect.getTaskStatus])

/-- Outcome of `policy_import` / `exec_module`: the changed flag, a raised
error, or divergence of the polling loop. -/
inductive RunOutcome where
  | ok (changed : Bool)
  | error (e : ImportError)
  | hangs
deriving Repr, DecidableEq

/-- Submit the import task and wait for it: the common tail of the inline and
file paths of `policy_import`. -/
def runTask (dev : Device) (w : Want) (ch : Changes) : RunOutcome × List Effect :=
  match inline_import dev w ch with
  | (.error e, es) => (.error e, es)
  | (.ok _, es) =>
    let wr := wait_for_task dev.polls
    (match wr.1 with
      | .completed => .ok true
      | .taskFailed => .error .taskFailed
      | .badCode raw => .error (.remote raw)
      | .ranOut => .hangs,
      es ++ wr.2)

/-- `ModuleManager.import_file_to_device` (source lines 499-506): basename of
the source path, upload (a `None` source would be a Python `TypeError`),
fixed two-second sleep, then the same task submission and wait. -/
def runFileImport (dev : Device) (w : Want) (ch : Changes) : RunOutcome × List Effect :=
  match w.source with
  | none => (.error (.pyError "TypeError"), [])
  | some src =>
    let nm := osPathBasename src
    match upload_file_to_device dev with
    | .error e => (.error e, [Effect.uploadFile nm])
    | .ok _ =>
      let r := runTask dev w ch
      (r.1, Effect.uploadFile nm :: Effect.sleep 2 :: r.2)

/-- The full state produced by `policy_import`: its outcome, the (possibly
force-cleared) `want`, the final `self.changes`, and the effect trace. -/
structure PIResult where
  outcome : RunOutcome
  want : Want
  changes : Changes
  effects : List Effect
deriving Repr, DecidableEq

/-- The `want` after the force-clearing step of `policy_import`
(`self.want.update({'force': None})` when the policy is absent and `force`
is `True`); `ex2` is the answer of the second `exists` call. -/
def resolveWant (ex2 : Bool) (w : Want) : Want :=
  if ex2 = false ∧ w.force = some true then { w with force := none } else w

/-- `ModuleManager.policy_import` (source lines 406-421): set the changed
options (may raise), short-circuit in check mode, return `False` when the
policy exists and `force` is `False`, clear `force` when the policy is absent
and `force` is `True` (note the second `exists` GET), then run the inline or
file import path. -/
def policy_import (checkMode : Bool) (dev : Device) (w0 : Want) : PIResult :=
  match setChangedOptions w0 with
  | .error e => ⟨.error e, w0, emptyChanges, []⟩
  | .ok ch =>
    if checkMode then ⟨.ok true, w0, ch, []⟩
    else
      match ModuleManager.exists_ dev with
      | .error e => ⟨.error e, w0, ch, [Effect.getPolicies]⟩
      | .ok ex1 =>
        if ex1 = true ∧ w0.force = some false then
          ⟨.ok false, w0, ch, [Effect.getPolicies]⟩
        else
          match ModuleManager.exists_ dev with
          | .error e => ⟨.error e, w0, ch, [Effect.getPolicies, Effect.getPolicies]⟩
          | .ok ex2 =>
            let w1 := resolveWant ex2 w0
            if truthyStr w1.inline then
              let r := runTask dev w1 ch
              ⟨r.1, w1, ch, Effect.getPolicies :: Effect.getPolicies :: r.2⟩
            else
              match clearChanges w1 with
              | .error e => ⟨.error e, w1, ch, [Effect.getPolicies, Effect.getPolicies]⟩
              | .ok ch2 =>
                let r := runFileImport dev w1 ch2
                ⟨r.1, w1, ch2, Effect.getPolicies :: Effect.getPolicies :: r.2⟩

/-- `ReportableChanges` applied to `self.changes.to_return()`: `parent_policy`
collapses to its `fullPath`, the two booleans are rendered as `yes`/`no`, the
rest passes through; `exec_module` then adds the `changed` flag. -/
def reportOf (c : Changes) (changed : Bool) : Report :=
  ⟨c.name, c.inline, c.source, c.force, c.policy_type,
    flatten_boolean c.retain_inheritance_settings,
    c.parent_policy.map ParentRef.fullPath,
    flatten_boolean c.base64, c.encoding, changed⟩

/-- Outcome of `exec_module`: the result dict on success, else the error. -/
inductive ExecOutcome where
  | ok (r : Report)
  | error (e : ImportError)
  | hangs
deriving Repr, DecidableEq

/-- Result of `exec_module` with its effect trace. -/
structure ExecResult where
  outcome : ExecOutcome
  effects : List Effect
deriving Repr, DecidableEq

/-- `ModuleManager.exec_module` (source lines 372-389), restricted to the
orchestrator core: the ASM-provisioning guard and TEEM telemetry that wrap it
are external harness per the spec scope.  It runs `policy_import`, builds the
reportable changes, and adds the `changed` flag. -/
def exec_module (checkMode : Bool) (dev : Device) (w : Want) : ExecResult :=
  let pi := policy_import checkMode dev w
  match pi.outcome with
  | .ok changed => ⟨.ok (reportOf pi.changes changed), pi.effects⟩
  | .error e => ⟨.error e, pi.effects⟩
  | .hangs => ⟨.hangs, pi.effects⟩

/-- A spec whose fields pass the `parent_policy` validation. -/
def validSpec (w : Want) : Prop :=
  w.parent_policy = none ∨ w.policy_type ≠ "parent"

/-- The condition under which `exists` answers `True`. -/
def existsCond (dev : Device) : Prop :=
  dev.policies.code ∈ okCodes ∧ dev.policies.hasItems = true ∧
    dev.policies.items ≠ []

/-- The condition under which `exists` answers `False`. -/
def absentCond (dev : Device) : Prop :=
  dev.policies.code ∈ okCodes ∧
    ¬(dev.policies.hasItems = true ∧ dev.policies.items ≠ [])

/-- The payloads POSTed to the import-task endpoint within a trace. -/
def postedPayloads (l : List Effect) : List Payload :=
  l.filterMap fun e =>
    match e with
    | .postImportTask p => some p
    | _ => none

/-- An effect that mutates device state: the file upload or the task POST. -/
def mutating : Effect → Prop
  | .uploadFile _ => True
  | .postImportTask _ => True
  | _ => False

/-- No effect of the trace mutates the device. -/
def noMutation (l : List Effect) : Prop := ∀ e ∈ l, ¬ mutating e

instance : DecidablePred mutating := fun e =>
  match e with
  | .uploadFile _ => isTrue trivial
  | .postImportTask _ => isTrue trivial
  | .getPolicies => isFalse (fun h => h)
  | .getTaskStatus => isFalse (fun h => h)
  | .sleep _ => isFalse (fun h => h)

/-- The `parentPolicy` reference a valid spec produces. -/
def ppOf (w : Want) : Option ParentRef :=
  w.parent_policy.map fun p => ⟨fq_name w.partition p⟩

/-- The `UsableChanges` built by `_set_changed_options` on a valid spec. -/
def changesOf (w : Want) : Changes :=
  ⟨some w.name, w.inline, w.source, w.force, some w.policy_type,
    ModuleParameters.retain_inheritance_settings w, ppOf w,
    ModuleParameters.base64 w, w.encoding⟩

/-- The `UsableChanges` built by `_clear_changes` on a valid spec. -/
def clearedOf (w : Want) : Changes :=
  ⟨some w.name, w.inline, w.source, w.force, none, none, none, none, none⟩

/-- The task payload `inline_import` POSTs when `force` is not truthy. -/
def buildPayload (w : Want) (c : Changes) : Payload :=
  let p0 := c.api_params
  let p1 := { p0 with name := some (fq_name w.partition w.name) }
  if truthyStr w.source then
    { p1 with filename := some (osPathBasename (w.source.getD "")) }
  else p1

/-- The task payload `inline_import` POSTs when `force` is truthy: the
existing policy link replaces the popped `name`. -/
def buildPayloadRef (w : Want) (c : Changes) (link : String) : Payload :=
  { buildPayload w c with policyReference := some link, name := none }

/-- The `changed` flag of the result dict, when the run returned one. -/
def reportedChanged (r : ExecResult) : Option Bool :=
  match r.outcome with
  | .ok rep => some rep.changed
  | _ => none

/-- Whether a poll response breaks the loop by its status. -/
def isTerminal (r : PollResponse) : Bool :=
  r.status == "COMPLETED" || r.status == "FAILURE"

/-- The status of the first terminal poll response, when one occurs. -/
def firstTerminal (polls : List PollResponse) : Option String :=
  (polls.find? isTerminal).map PollResponse.status

instance (w : Want) : Decidable (validSpec w) := by
  unfold validSpec
  infer_instance

instance (dev : Device) : Decidable (existsCond dev) := by
  unfold existsCond
  infer_instance

instance (dev : Device) : Decidable (absentCond dev) := by
  unfold absentCond
  infer_instance

/-- On a valid spec the `parent_policy` property evaluates without raising. -/
theorem parent_policy_ok (w : Want) (hv : validSpec w) :
    ModuleParameters.parent_policy w = .ok (ppOf w) := by
  unfold ModuleParameters.parent_policy ppOf
  cases hpp : w.parent_policy with
  | none => rfl
  | some p =>
    rcases hv with h | h
    · rw [hpp] at h; cases h
    · simp [h]

/-- On a valid spec `_set_changed_options` builds the full changes dict. -/
theorem setChangedOptions_eq (w : Want) (hv : validSpec w) :
    setChangedOptions w = .ok (changesOf w) := by
  unfold setChangedOptions changesOf
  rw [parent_policy_ok w hv]

/-- On a valid spec `_clear_changes` keeps only the non-redundant keys. -/
theorem clearChanges_eq (w : Want) (hv : validSpec w) :
    clearChanges w = .ok (clearedOf w) := by
  unfold clearChanges clearedOf
  rw [parent_policy_ok w hv]

/-- `exists` answers `True` when the device reports a non-empty items list. -/
theorem exists_eq_true (dev : Device) (h : existsCond dev) :
    ModuleManager.exists_ dev = .ok true := by
  unfold ModuleManager.exists_
  rw [if_pos h.1, if_pos ⟨h.2.1, h.2.2⟩]

/-- `exists` answers `False` when the accepted body lacks a non-empty items
list. -/
theorem exists_eq_false (dev : Device) (h : absentCond dev) :
    ModuleManager.exists_ dev = .ok false := by
  unfold ModuleManager.exists_
  rw [if_pos h.1, if_neg h.2]

/-- `exists` raises the raw body on a code outside the accepted set. -/
theorem exists_eq_error (dev : Device) (h : dev.policies.code ∉ okCodes) :
    ModuleManager.exists_ dev = .error (.remote dev.policies.raw) := by
  unfold ModuleManager.exists_
  rw [if_neg h]

/-- When the policy exists, `_get_policy_link` returns the head item's
self-link. -/
theorem getPolicyLink_eq (dev : Device) (h : existsCond dev)
    (item : PolicyItem) (rest : List PolicyItem)
    (hi : dev.policies.items = item :: rest) :
    getPolicyLink dev = .ok item.selfLink := by
  unfold getPolicyLink
  rw [if_pos h.1, if_pos h.2.1, hi]
  rfl

/-- Unfolding `wait_for_task` on a bad response code. -/
theorem wait_cons_bad (r : PollResponse) (rest : List PollResponse)
    (hc : r.code ∉ okCodes) :
    wait_for_task (r :: rest) = (.badCode r.raw, [Effect.getTaskStatus]) := by
  unfold wait_for_task
  rw [if_neg hc]

/-- Unfolding `wait_for_task` on a COMPLETED poll. -/
theorem wait_cons_completed (r : PollResponse) (rest : List PollResponse)
    (hc : r.code ∈ okCodes) (h1 : r.status = "COMPLETED") :
    wait_for_task (r :: rest) = (.completed, [Effect.getTaskStatus]) := by
  unfold wait_for_task
  rw [if_pos hc, if_pos h1]

/-- Unfolding `wait_for_task` on a FAILURE poll. -/
theorem wait_cons_failure (r : PollResponse) (rest : List PollResponse)
    (hc : r.code ∈ okCodes) (h1 : r.status ≠ "COMPLETED")
    (h2 : r.status = "FAILURE") :
    wait_for_task (r :: rest) = (.taskFailed, [Effect.getTaskStatus]) := by
  unfold wait_for_task
  rw [if_pos hc, if_neg h1, if_pos h2]

/-- Unfolding `wait_for_task` on a non-terminal poll: one-second sleep, then
the loop continues. -/
theorem wait_cons_step (r : PollResponse) (rest : List PollResponse)
    (hc : r.code ∈ okCodes) (h1 : r.status ≠ "COMPLETED")
    (h2 : r.status ≠ "FAILURE") :
    wait_for_task (r :: rest) =
      ((wait_for_task rest).1,
        Effect.getTaskStatus :: Effect.sleep 1 :: (wait_for_task rest).2) := by
  conv_lhs => unfold wait_for_task
  rw [if_pos hc, if_neg h1, if_neg h2]

/-- The polling loop returns (rather than running past the supplied
responses) exactly when some response is terminal or has a bad code. -/
theorem wait_terminates_iff (polls : List PollResponse) :
    (wait_for_task polls).1 ≠ .ranOut ↔
      ∃ r ∈ polls,
        r.status = "COMPLETED" ∨ r.status = "FAILURE" ∨ r.code ∉ okCodes := by
  induction polls with
  | nil => simp [wait_for_task]
  | cons r rest ih =>
    by_cases hc : r.code ∈ okCodes
    · by_cases h1 : r.status = "COMPLETED"
      · rw [wait_cons_completed r rest hc h1]
        exact iff_of_true (by simp) ⟨r, by simp, Or.inl h1⟩
      · by_cases h2 : r.status = "FAILURE"
        · rw [wait_cons_failure r rest hc h1 h2]
          exact iff_of_true (by simp) ⟨r, by simp, Or.inr (Or.inl h2)⟩
        · rw [wait_cons_step r rest hc h1 h2]
          simp only [List.mem_cons]
          constructor
          · intro h
            obtain ⟨s, hs, hp⟩ := ih.mp h
            exact ⟨s, Or.inr hs, hp⟩
          · rintro ⟨s, hs | hs, hp⟩
            · subst hs
              rcases hp with h | h | h
              exacts [absurd h h1, absurd h h2, absurd hc h]
            · exact ih.mpr ⟨s, hs, hp⟩
    · rw [wait_cons_bad r rest hc]
      exact iff_of_true (by simp) ⟨r, by simp, Or.inr (Or.inr hc)⟩

/-- Every effect of the polling loop is a status GET or a one-second sleep:
the interval is fixed, with no backoff. -/
theorem wait_effects_shape (polls : List PollResponse) :
    ∀ e ∈ (wait_for_task polls).2, e = .getTaskStatus ∨ e = .sleep 1 := by
  induction polls with
  | nil => simp [wait_for_task]
  | cons r rest ih =>
    by_cases hc : r.code ∈ okCodes
    · by_cases h1 : r.status = "COMPLETED"
      · rw [wait_cons_completed r rest hc h1]; simp
      · by_cases h2 : r.status = "FAILURE"
        · rw [wait_cons_failure r rest hc h1 h2]; simp
        · rw [wait_cons_step r rest hc h1 h2]
          intro e he
          rw [List.mem_cons, List.mem_cons] at he
          rcases he with he | he | he
          · exact Or.inl he
          · exact Or.inr he
          · exact ih e he
    · rw [wait_cons_bad r rest hc]; simp

/-- Filtering the task POSTs out of a trace made only of GETs and sleeps. -/
theorem postedPayloads_of_shape (l : List Effect)
    (h : ∀ e ∈ l, e = .getTaskStatus ∨ e = .sleep 1) :
    postedPayloads l = [] := by
  induction l with
  | nil => rfl
  | cons e rest ih =>
    have hrest : ∀ x ∈ rest, x = Effect.getTaskStatus ∨ x = Effect.sleep 1 :=
      fun x hx => h x (by simp [hx])
    have he : e = Effect.getTaskStatus ∨ e = Effect.sleep 1 := h e (by simp)
    cases he with
    | inl h1 => rw [h1]; simpa [postedPayloads, List.filterMap_cons] using ih hrest
    | inr h1 => rw [h1]; simpa [postedPayloads, List.filterMap_cons] using ih hrest

/-- The polling loop never POSTs an import task. -/
theorem postedPayloads_wait (polls : List PollResponse) :
    postedPayloads (wait_for_task polls).2 = [] :=
  postedPayloads_of_shape _ (wait_effects_shape polls)

/-- The loop answers `taskFailed` when the first terminal status seen is
FAILURE (all codes accepted up to there). -/
theorem wait_first_failure (polls : List PollResponse)
    (hc : ∀ r ∈ polls, r.code ∈ okCodes)
    (hf : firstTerminal polls = some "FAILURE") :
    (wait_for_task polls).1 = .taskFailed := by
  induction polls with
  | nil => simp [firstTerminal] at hf
  | cons r rest ih =>
    have hcr : r.code ∈ okCodes := hc r (by simp)
    by_cases h1 : r.status = "COMPLETED"
    · exfalso
      have : isTerminal r = true := by simp [isTerminal, h1]
      rw [firstTerminal, List.find?_cons_of_pos _ this] at hf
      simp [h1] at hf
    · by_cases h2 : r.status = "FAILURE"
      · rw [wait_cons_failure r rest hcr h1 h2]
      · have hnt : ¬ isTerminal r = true := by
          simp [isTerminal, h1, h2]
        rw [firstTerminal, List.find?_cons_of_neg _ hnt] at hf
        rw [wait_cons_step r rest hcr h1 h2]
        exact ih (fun x hx => hc x (by simp [hx])) hf

/-- The loop answers `completed` when the first terminal status seen is
COMPLETED (all codes accepted up to there). -/
theorem wait_first_completed (polls : List PollResponse)
    (hc : ∀ r ∈ polls, r.code ∈ okCodes)
    (hf : firstTerminal polls = some "COMPLETED") :
    (wait_for_task polls).1 = .completed := by
  induction polls with
  | nil => simp [firstTerminal] at hf
  | cons r rest ih =>
    have hcr : r.code ∈ okCodes := hc r (by simp)
    by_cases h1 : r.status = "COMPLETED"
    · rw [wait_cons_completed r rest hcr h1]
    · by_cases h2 : r.status = "FAILURE"
      · exfalso
        have hpt : isTerminal r = true := by simp [isTerminal, h2]
        rw [firstTerminal, List.find?_cons_of_pos _ hpt] at hf
        simp [h2] at hf
      · have hnt : ¬ isTerminal r = true := by
          simp [isTerminal, h1, h2]
        rw [firstTerminal, List.find?_cons_of_neg _ hnt] at hf
        rw [wait_cons_step r rest hcr h1 h2]
        exact ih (fun x hx => hc x (by simp [hx])) hf

/-- Unfolding `inline_import` when `force` is truthy and the policy link
lookup succeeds: the payload carries the link and the popped `name`. -/
theorem inline_import_forced (dev : Device) (w : Want) (c : Changes)
    (link : String) (hf : truthyOpt w.force = true)
    (hl : getPolicyLink dev = .ok link) :
    inline_import dev w c =
      (postTask dev,
        [Effect.getPolicies, Effect.postImportTask (buildPayloadRef w c link)]) := by
  unfold inline_import buildPayloadRef buildPayload
  rw [hf, hl]
  rfl

/-- Unfolding `inline_import` when `force` is truthy and the link lookup
fails: the error propagates, nothing is POSTed. -/
theorem inline_import_forced_err (dev : Device) (w : Want) (c : Changes)
    (e : ImportError) (hf : truthyOpt w.force = true)
    (hl : getPolicyLink dev = .error e) :
    inline_import dev w c = (.error e, [Effect.getPolicies]) := by
  unfold inline_import
  rw [hf, hl]
  rfl

/-- Unfolding `inline_import` when `force` is not truthy: the payload keeps
the name and has no policy reference. -/
theorem inline_import_unforced (dev : Device) (w : Want) (c : Changes)
    (hf : truthyOpt w.force = false) :
    inline_import dev w c =
      (postTask dev, [Effect.postImportTask (buildPayload w c)]) := by
  unfold inline_import buildPayload
  rw [hf]
  rfl

/-- The concrete fields of the unforced payload, traced from
`api_params` and the updates `inline_import` applies. -/
theorem buildPayload_fields (w : Want) (c : Changes) :
    (buildPayload w c).name = some (fq_name w.partition w.name) ∧
    (buildPayload w c).policyReference = none ∧
    (buildPayload w c).file = c.inline ∧
    (buildPayload w c).policyType = c.policy_type ∧
    (buildPayload w c).retainInheritanceSettings =
      c.retain_inheritance_settings ∧
    (buildPayload w c).parentPolicy = c.parent_policy ∧
    (buildPayload w c).isBase64 = c.base64 ∧
    (buildPayload w c).applicationLanguage = c.encoding := by
  unfold buildPayload Changes.api_params
  by_cases h : truthyStr w.source = true
  · rw [if_pos h]
    exact ⟨rfl, rfl, rfl, rfl, rfl, rfl, rfl, rfl⟩
  · rw [if_neg h]
    exact ⟨rfl, rfl, rfl, rfl, rfl, rfl, rfl, rfl⟩

/-- The concrete fields of the forced payload: the link replaces the popped
name, everything else is as in the unforced payload. -/
theorem buildPayloadRef_fields (w : Want) (c : Changes) (link : String) :
    (buildPayloadRef w c link).name = none ∧
    (buildPayloadRef w c link).policyReference = some link ∧
    (buildPayloadRef w c link).file = (buildPayload w c).file ∧
    (buildPayloadRef w c link).policyType = (buildPayload w c).policyType ∧
    (buildPayloadRef w c link).retainInheritanceSettings =
      (buildPayload w c).retainInheritanceSettings ∧
    (buildPayloadRef w c link).parentPolicy = (buildPayload w c).parentPolicy ∧
    (buildPayloadRef w c link).isBase64 = (buildPayload w c).isBase64 ∧
    (buildPayloadRef w c link).applicationLanguage =
      (buildPayload w c).applicationLanguage :=
  ⟨rfl, rfl, rfl, rfl, rfl, rfl, rfl, rfl⟩

/-- Any payload POSTed within `runTask` is the built payload of that phase:
the unforced one, or (when `force` is truthy) the forced one for the link the
lookup returned. -/
theorem postedPayloads_append (a b : List Effect) :
    postedPayloads (a ++ b) = postedPayloads a ++ postedPayloads b :=
  List.filterMap_append a b _

theorem mem_postedPayloads_runTask (dev : Device) (w : Want) (c : Changes)
    (p : Payload) (hp : p ∈ postedPayloads (runTask dev w c).2) :
    (truthyOpt w.force = false ∧ p = buildPayload w c) ∨
    (truthyOpt w.force = true ∧ ∃ link, getPolicyLink dev = .ok link ∧
      p = buildPayloadRef w c link) := by
  by_cases hf : truthyOpt w.force = true
  · cases hl : getPolicyLink dev with
    | error e =>
      unfold runTask at hp
      rw [inline_import_forced_err dev w c e hf hl] at hp
      simp [postedPayloads] at hp
    | ok link =>
      unfold runTask at hp
      rw [inline_import_forced dev w c link hf hl] at hp
      cases hpt : postTask dev with
      | error e =>
        rw [hpt] at hp
        simp [postedPayloads] at hp
        exact Or.inr ⟨hf, link, rfl, hp⟩
      | ok tid =>
        rw [hpt] at hp
        dsimp only at hp
        rw [postedPayloads_append, postedPayloads_wait] at hp
        simp [postedPayloads] at hp
        exact Or.inr ⟨hf, link, rfl, hp⟩
  · have hf0 : truthyOpt w.force = false := by
      cases h : truthyOpt w.force
      · rfl
      · exact absurd h hf
    unfold runTask at hp
    rw [inline_import_unforced dev w c hf0] at hp
    cases hpt : postTask dev with
    | error e =>
      rw [hpt] at hp
      simp [postedPayloads] at hp
      exact Or.inl ⟨hf0, hp⟩
    | ok tid =>
      rw [hpt] at hp
      dsimp only at hp
      rw [postedPayloads_append, postedPayloads_wait] at hp
      simp [postedPayloads] at hp
      exact Or.inl ⟨hf0, hp⟩

/-- `_clear_changes` can only answer the cleared dict. -/
theorem clearChanges_ok_eq (w : Want) (c : Changes)
    (h : clearChanges w = .ok c) : c = clearedOf w := by
  unfold clearChanges at h
  cases hpp : ModuleParameters.parent_policy w with
  | error e =>
    rw [hpp] at h
    cases h
  | ok x =>
    rw [hpp] at h
    injection h with h
    exact h.symm

/-- The effect trace of `exec_module` is that of `policy_import`. -/
theorem exec_effects (cm : Bool) (dev : Device) (w : Want) :
    (exec_module cm dev w).effects = (policy_import cm dev w).effects := by
  unfold exec_module
  cases h : (policy_import cm dev w).outcome <;> simp [h]

/-- A successful run of `_set_changed_options` pins down the stored
`parent_policy` value. -/
theorem parent_policy_of_set (w : Want) (ch : Changes)
    (h : setChangedOptions w = .ok ch) :
    ModuleParameters.parent_policy w = .ok ch.parent_policy := by
  unfold setChangedOptions at h
  cases hpp : ModuleParameters.parent_policy w with
  | error e =>
    rw [hpp] at h
    cases h
  | ok pp =>
    rw [hpp] at h
    injection h with h
    rw [← h]

/-- Clearing `force` does not affect the `parent_policy` validation. -/
theorem parent_policy_resolveWant (ex2 : Bool) (w : Want) :
    ModuleParameters.parent_policy (resolveWant ex2 w) =
      ModuleParameters.parent_policy w := by
  unfold resolveWant
  by_cases h : ex2 = false ∧ w.force = some true
  · rw [if_pos h]
    rfl
  · rw [if_neg h]

/-- The force-clearing step touches no other field of `want`. -/
theorem resolveWant_fields (ex2 : Bool) (w : Want) :
    (resolveWant ex2 w).name = w.name ∧
    (resolveWant ex2 w).partition = w.partition ∧
    (resolveWant ex2 w).policy_type = w.policy_type ∧
    (resolveWant ex2 w).parent_policy = w.parent_policy ∧
    (resolveWant ex2 w).inline = w.inline ∧
    (resolveWant ex2 w).source = w.source := by
  unfold resolveWant
  by_cases h : ex2 = false ∧ w.force = some true
  · rw [if_pos h]
    exact ⟨rfl, rfl, rfl, rfl, rfl, rfl⟩
  · rw [if_neg h]
    exact ⟨rfl, rfl, rfl, rfl, rfl, rfl⟩

/-- Unfolding `policy_import` in the proceed case on the inline path. -/
theorem policy_import_proceed_inline (dev : Device) (w : Want) (ch : Changes)
    (ex2 : Bool)
    (hset : setChangedOptions w = .ok ch)
    (hex : ModuleManager.exists_ dev = .ok ex2)
    (hskip : ¬(ex2 = true ∧ w.force = some false))
    (hinl : truthyStr (resolveWant ex2 w).inline = true) :
    policy_import false dev w =
      ⟨(runTask dev (resolveWant ex2 w) ch).1, resolveWant ex2 w, ch,
        Effect.getPolicies :: Effect.getPolicies ::
          (runTask dev (resolveWant ex2 w) ch).2⟩ := by
  unfold policy_import
  rw [hset, hex]
  dsimp only
  rw [if_neg hskip, hinl]
  rfl

/-- Unfolding `policy_import` in the proceed case on the file path: the
changes are cleared, then the file import runs. -/
theorem policy_import_proceed_file (dev : Device) (w : Want) (ch : Changes)
    (ex2 : Bool)
    (hset : setChangedOptions w = .ok ch)
    (hex : ModuleManager.exists_ dev = .ok ex2)
    (hskip : ¬(ex2 = true ∧ w.force = some false))
    (hinl : truthyStr (resolveWant ex2 w).inline = false) :
    policy_import false dev w =
      ⟨(runFileImport dev (resolveWant ex2 w) (clearedOf (resolveWant ex2 w))).1,
        resolveWant ex2 w, clearedOf (resolveWant ex2 w),
        Effect.getPolicies :: Effect.getPolicies ::
          (runFileImport dev (resolveWant ex2 w)
            (clearedOf (resolveWant ex2 w))).2⟩ := by
  have hcl : clearChanges (resolveWant ex2 w) =
      .ok (clearedOf (resolveWant ex2 w)) := by
    unfold clearChanges
    rw [parent_policy_resolveWant, parent_policy_of_set w ch hset]
    rfl
  unfold policy_import
  rw [hset, hex]
  dsimp only
  rw [if_neg hskip, hinl, hcl]
  rfl

/-- Any payload POSTed by the file-import path is POSTed by its common
`runTask` tail. -/
theorem mem_postedPayloads_runFileImport (dev : Device) (w : Want)
    (c : Changes) (p : Payload)
    (hp : p ∈ postedPayloads (runFileImport dev w c).2) :
    p ∈ postedPayloads (runTask dev w c).2 := by
  unfold runFileImport at hp
  cases hs : w.source with
  | none =>
    rw [hs] at hp
    simp [postedPayloads] at hp
  | some src =>
    rw [hs] at hp
    dsimp only at hp
    cases hu : upload_file_to_device dev with
    | error e =>
      rw [hu] at hp
      simp [postedPayloads] at hp
    | ok u =>
      rw [hu] at hp
      dsimp only at hp
      simp only [postedPayloads, List.filterMap_cons] at hp ⊢
      exact hp

/-- When a source path is set and the upload is accepted, the file-import
path has the outcome of its `runTask` tail. -/
theorem runFileImport_outcome (dev : Device) (w : Want) (c : Changes)
    (src : String) (hs : w.source = some src)
    (hu : dev.upload.code ∈ okCodes) :
    (runFileImport dev w c).1 = (runTask dev w c).1 := by
  unfold runFileImport
  rw [hs]
  dsimp only
  have hupl : upload_file_to_device dev = .ok () := by
    unfold upload_file_to_device
    rw [if_pos hu]
  rw [hupl]

/-- The outcome of `runTask` is the translated polling outcome whenever the
POST is accepted (and, if forced, the link lookup succeeded). -/
theorem runTask_outcome (dev : Device) (w : Want) (c : Changes)
    (hpost : dev.taskPost.code ∈ okCodes)
    (hf : truthyOpt w.force = false ∨ ∃ link, getPolicyLink dev = .ok link) :
    (runTask dev w c).1 =
      (match (wait_for_task dev.polls).1 with
        | .completed => .ok true
        | .taskFailed => .error .taskFailed
        | .badCode raw => .error (.remote raw)
        | .ranOut => .hangs) := by
  have hpt : postTask dev = .ok dev.taskPost.id := by
    unfold postTask
    rw [if_pos hpost]
  by_cases hft : truthyOpt w.force = true
  · rcases hf with hf0 | ⟨link, hl⟩
    · rw [hft] at hf0
      cases hf0
    · unfold runTask
      rw [inline_import_forced dev w c link hft hl, hpt]
  · have hf0 : truthyOpt w.force = false := by
      cases h : truthyOpt w.force
      · rfl
      · exact absurd h hft
    unfold runTask
    rw [inline_import_unforced dev w c hf0, hpt]

/-- `exec_module` propagates an error outcome of `policy_import`. -/
theorem exec_outcome_error (cm : Bool) (dev : Device) (w : Want)
    (e : ImportError) (h : (policy_import cm dev w).outcome = .error e) :
    (exec_module cm dev w).outcome = .error e := by
  unfold exec_module
  dsimp only
  rw [h]

/-- `exec_module` reports the changes of `policy_import` on a boolean
outcome. -/
theorem exec_outcome_ok (cm : Bool) (dev : Device) (w : Want) (b : Bool)
    (h : (policy_import cm dev w).outcome = .ok b) :
    (exec_module cm dev w).outcome =
      .ok (reportOf (policy_import cm dev w).changes b) := by
  unfold exec_module
  dsimp only
  rw [h]

/-- `exec_module` propagates divergence of `policy_import`. -/
theorem exec_outcome_hangs (cm : Bool) (dev : Device) (w : Want)
    (h : (policy_import cm dev w).outcome = .hangs) :
    (exec_module cm dev w).outcome = .hangs := by
  unfold exec_module
  dsimp only
  rw [h]

/-- A `True` answer of `exists` forces the existence condition. -/
theorem exists_ok_true_cond (dev : Device)
    (h : ModuleManager.exists_ dev = .ok true) : existsCond dev := by
  by_cases hc : dev.policies.code ∈ okCodes
  · by_cases hi : dev.policies.hasItems = true ∧ dev.policies.items ≠ []
    · exact ⟨hc, hi.1, hi.2⟩
    · rw [exists_eq_false dev ⟨hc, hi⟩] at h
      simp at h
  · rw [exists_eq_error dev hc] at h
    simp at h

/-- A boolean that is not true is false. -/
theorem bool_eq_false (b : Bool) (h : ¬ b = true) : b = false := by
  cases b
  · rfl
  · exact absurd rfl h

/-- Stripping a policies GET off a trace does not change the POSTed
payloads. -/
theorem mem_postedPayloads_cons_gp (l : List Effect) (p : Payload)
    (hp : p ∈ postedPayloads (Effect.getPolicies :: l)) :
    p ∈ postedPayloads l := by
  simpa [postedPayloads, List.filterMap_cons] using hp

/-- Unfolding `policy_import` when the changed-options step raises. -/
theorem policy_import_set_error (cm : Bool) (dev : Device) (w : Want)
    (e : ImportError) (h : setChangedOptions w = .error e) :
    policy_import cm dev w = ⟨.error e, w, emptyChanges, []⟩ := by
  unfold policy_import
  rw [h]

/-- Unfolding `policy_import` when the first existence GET raises. -/
theorem policy_import_exists_error (dev : Device) (w : Want) (ch : Changes)
    (e : ImportError) (hset : setChangedOptions w = .ok ch)
    (hex : ModuleManager.exists_ dev = .error e) :
    policy_import false dev w = ⟨.error e, w, ch, [Effect.getPolicies]⟩ := by
  unfold policy_import
  rw [hset, hex]
  rfl

/-- Unfolding `policy_import` on the skip branch: existing policy, force
False. -/
theorem policy_import_skip (dev : Device) (w : Want) (ch : Changes)
    (hset : setChangedOptions w = .ok ch)
    (hex : ModuleManager.exists_ dev = .ok true)
    (hf : w.force = some false) :
    policy_import false dev w = ⟨.ok false, w, ch, [Effect.getPolicies]⟩ := by
  unfold policy_import
  rw [hset, hex]
  dsimp only
  have hcond : (true : Bool) = true ∧ w.force = some false := ⟨rfl, hf⟩
  rw [if_pos hcond]
  rfl

/-- C10: `exists` returns `True` iff the response code is one of 200, 201,
202 and the body carries a non-empty `items` list; an accepted code without
one yields `False` (policy treated as absent, not an error); any other code —
including 2xx codes outside the set, such as 204 — raises with the raw body
as the message. -/
theorem c10_exists_semantics (dev : Device) :
    (ModuleManager.exists_ dev = .ok true ↔ existsCond dev) ∧
    (absentCond dev → ModuleManager.exists_ dev = .ok false) ∧
    (dev.policies.code ∉ okCodes →
      ModuleManager.exists_ dev = .error (.remote dev.policies.raw)) := by
  refine ⟨⟨?_, exists_eq_true dev⟩, exists_eq_false dev, exists_eq_error dev⟩
  intro h
  by_cases hc : dev.policies.code ∈ okCodes
  · by_cases hi : dev.policies.hasItems = true ∧ dev.policies.items ≠ []
    · exact ⟨hc, hi.1, hi.2⟩
    · rw [exists_eq_false dev ⟨hc, hi⟩] at h
      simp at h
  · rw [exists_eq_error dev hc] at h
    simp at h

/-- Witness for C10: a 204 response, though 2xx, raises with the raw body. -/
theorem c10_exists_semantics_witness :
    (204 ∉ okCodes) ∧
    ModuleManager.exists_
        ⟨⟨204, true, [⟨"lnk"⟩], "no content"⟩, ⟨200, "u"⟩, ⟨200, "i", "p"⟩, []⟩ =
      .error (.remote "no content") :=
  ⟨by decide,
    (c10_exists_semantics
      ⟨⟨204, true, [⟨"lnk"⟩], "no content"⟩, ⟨200, "u"⟩, ⟨200, "i", "p"⟩, []⟩).2.2
      (by decide)⟩

/-- C4: a spec carrying `parent_policy` together with `policy_type='parent'`
makes the run raise the validation `F5ModuleError` with the exact message,
with an empty effect trace: no device call is made, in or out of check
mode. -/
theorem c4_parent_policy_validation (cm : Bool) (dev : Device) (w : Want)
    (p : String) (hp : w.parent_policy = some p)
    (ht : w.policy_type = "parent") :
    exec_module cm dev w = ⟨.error (.validation parentPolicyErrMsg), []⟩ := by
  have hset : setChangedOptions w = .error (.validation parentPolicyErrMsg) := by
    unfold setChangedOptions ModuleParameters.parent_policy
    rw [hp]
    simp [ht]
  simp [exec_module, policy_import, hset]

/-- Witness for C4 at a concrete spec. -/
theorem c4_parent_policy_validation_witness :
    (⟨"p1", "Common", "parent", none, some "par", none, none, none, none,
        some false⟩ : Want).parent_policy = some "par" ∧
    exec_module false ⟨⟨200, true, [], "r"⟩, ⟨200, "u"⟩, ⟨200, "i", "p"⟩, []⟩
        ⟨"p1", "Common", "parent", none, some "par", none, none, none, none,
          some false⟩ =
      ⟨.error (.validation parentPolicyErrMsg), []⟩ :=
  ⟨rfl, c4_parent_policy_validation false _ _ "par" rfl rfl⟩

/-- C8 counterexample: a poll answering 204 — a 2xx code — with the
non-terminal status STARTED makes the loop terminate (by raising), although
no poll returned COMPLETED, FAILURE, or a non-2xx code; so "terminates
exactly when some poll returns COMPLETED or FAILURE or a non-2xx code" is
false on the code. -/
theorem c8_counterexample :
    (wait_for_task [⟨204, "STARTED", "xbody"⟩]).1 = .badCode "xbody" ∧
    (wait_for_task [⟨204, "STARTED", "xbody"⟩]).1 ≠ .ranOut ∧
    (200 ≤ 204 ∧ 204 < 300) ∧
    ("STARTED" : String) ≠ "COMPLETED" ∧
    ("STARTED" : String) ≠ "FAILURE" := by
  decide

/-- C8 amended: `wait_for_task` polls at a fixed one-second interval with no
timeout and no backoff; it terminates exactly when some poll returns status
COMPLETED or FAILURE or a code outside {200, 201, 202}, and on a response
stream that never does either it loops forever. -/
theorem c8_fixed_interval_polling :
    (∀ polls : List PollResponse,
      (wait_for_task polls).1 ≠ .ranOut ↔
        ∃ r ∈ polls, r.status = "COMPLETED" ∨ r.status = "FAILURE" ∨
          r.code ∉ okCodes) ∧
    (∀ polls : List PollResponse, ∀ e ∈ (wait_for_task polls).2,
      e = .getTaskStatus ∨ e = .sleep 1) ∧
    (∀ f : Nat → PollResponse,
      (∀ n, (f n).code ∈ okCodes ∧ (f n).status ≠ "COMPLETED" ∧
        (f n).status ≠ "FAILURE") →
      ∀ n, (wait_for_task ((List.range n).map f)).1 = .ranOut) := by
  refine ⟨wait_terminates_iff, wait_effects_shape, ?_⟩
  intro f hf n
  by_contra hne
  obtain ⟨r, hr, hp⟩ := (wait_terminates_iff _).mp hne
  obtain ⟨i, _, rfl⟩ := List.mem_map.mp hr
  rcases hp with h | h | h
  · exact (hf i).2.1 h
  · exact (hf i).2.2 h
  · exact h (hf i).1

/-- Witness for C8: on a constant stream of accepted STARTED responses the
loop runs past any number of polls. -/
theorem c8_fixed_interval_polling_witness :
    (wait_for_task ((List.range 3).map
        fun _ => (⟨200, "STARTED", "x"⟩ : PollResponse))).1 = .ranOut :=
  c8_fixed_interval_polling.2.2 (fun _ => ⟨200, "STARTED", "x"⟩)
    (fun _ => ⟨show (200 : Nat) ∈ okCodes by decide,
      show ("STARTED" : String) ≠ "COMPLETED" by decide,
      show ("STARTED" : String) ≠ "FAILURE" by decide⟩) 3

/-- C6 counterexample: for a spec whose policy exists with force=false, check
mode reports changed=true while the real run reports changed=false — the
check-mode result does not match what a real run would report. -/
theorem c6_counterexample :
    reportedChanged (exec_module true
        ⟨⟨200, true, [⟨"lnk"⟩], "rl"⟩, ⟨200, "ru"⟩, ⟨200, "t1", "rp"⟩,
          [⟨200, "COMPLETED", "rs"⟩]⟩
        ⟨"p1", "Common", "security", none, none, none, some "<xml/>", none,
          none, some false⟩) = some true ∧
    reportedChanged (exec_module false
        ⟨⟨200, true, [⟨"lnk"⟩], "rl"⟩, ⟨200, "ru"⟩, ⟨200, "t1", "rp"⟩,
          [⟨200, "COMPLETED", "rs"⟩]⟩
        ⟨"p1", "Common", "security", none, none, none, some "<xml/>", none,
          none, some false⟩) = some false := by
  decide

/-- C6 amended: a check-mode run short-circuits before any outward call (its
effect trace is empty, so in particular nothing mutates) and reports the
requested change with changed=true unconditionally — which may differ from
what a real run would report. -/
theorem c6_check_mode_short_circuits (dev : Device) (w : Want)
    (hv : validSpec w) :
    exec_module true dev w = ⟨.ok (reportOf (changesOf w) true), []⟩ ∧
    noMutation (exec_module true dev w).effects ∧
    reportedChanged (exec_module true dev w) = some true := by
  have h : exec_module true dev w = ⟨.ok (reportOf (changesOf w) true), []⟩ := by
    simp [exec_module, policy_import, setChangedOptions_eq w hv]
  refine ⟨h, ?_, ?_⟩ <;> rw [h]
  · intro e he
    exact absurd he (List.not_mem_nil e)
  · rfl

/-- Witness for C6 at a concrete spec. -/
theorem c6_check_mode_short_circuits_witness :
    exec_module true ⟨⟨200, true, [⟨"lnk"⟩], "rl"⟩, ⟨200, "ru"⟩,
        ⟨200, "t1", "rp"⟩, []⟩
      ⟨"p1", "Common", "security", none, none, none, some "<xml/>", none,
        none, some false⟩ =
      ⟨.ok (reportOf (changesOf ⟨"p1", "Common", "security", none, none, none,
        some "<xml/>", none, none, some false⟩) true), []⟩ :=
  (c6_check_mode_short_circuits _ _ (by decide)).1

/-- C7 counterexample: a failed upload (non-2xx transfer response) raises the
fixed message `Failed to upload the file.`, not the raw response body. -/
theorem c7_counterexample :
    (exec_module false
        ⟨⟨200, false, [], "rl"⟩, ⟨403, "Access denied body"⟩,
          ⟨200, "t1", "rp"⟩, []⟩
        ⟨"p1", "Common", "security", none, none, none, none, none,
          some "/tmp/a.xml", some false⟩).outcome = .error .uploadFailed ∧
    ImportError.message .uploadFailed = "Failed to upload the file." ∧
    ((403 : Nat) ∉ okCodes) ∧
    ImportError.message .uploadFailed ≠ "Access denied body" := by
  decide

/-- C7 amended: a response code outside {200, 201, 202} makes the existence
check, the policy-link lookup, the task submission, and the task polling
raise an error whose message is the raw response body verbatim; a failed
file upload instead raises the fixed message `Failed to upload the file.`,
discarding the transfer response body. -/
theorem c7_error_surfacing (dev : Device) (w : Want) (ch : Changes)
    (r : PollResponse) (rest : List PollResponse)
    (hp : dev.policies.code ∉ okCodes)
    (hq : dev.taskPost.code ∉ okCodes)
    (hf : truthyOpt w.force = false)
    (hr : r.code ∉ okCodes)
    (hu : dev.upload.code ∉ okCodes) :
    ModuleManager.exists_ dev = .error (.remote dev.policies.raw) ∧
    getPolicyLink dev = .error (.remote dev.policies.raw) ∧
    (inline_import dev w ch).1 = .error (.remote dev.taskPost.raw) ∧
    (wait_for_task (r :: rest)).1 = .badCode r.raw ∧
    (ImportError.remote dev.policies.raw).message = dev.policies.raw ∧
    upload_file_to_device dev = .error .uploadFailed ∧
    ImportError.uploadFailed.message = "Failed to upload the file." := by
  refine ⟨exists_eq_error dev hp, ?_, ?_, ?_, rfl, ?_, rfl⟩
  · unfold getPolicyLink
    rw [if_neg hp]
  · unfold inline_import
    simp only [hf, Bool.false_eq_true, if_false]
    unfold postTask
    rw [if_neg hq]
  · rw [wait_cons_bad r rest hr]
  · unfold upload_file_to_device
    rw [if_neg hu]

/-- Witness for C7 at a concrete device whose every response is a 500. -/
theorem c7_error_surfacing_witness :
    ModuleManager.exists_ ⟨⟨500, false, [], "body pol"⟩, ⟨500, "body up"⟩,
        ⟨500, "tid", "body post"⟩, [⟨500, "STARTED", "body poll"⟩]⟩ =
      .error (.remote "body pol") ∧
    upload_file_to_device ⟨⟨500, false, [], "body pol"⟩, ⟨500, "body up"⟩,
        ⟨500, "tid", "body post"⟩, [⟨500, "STARTED", "body poll"⟩]⟩ =
      .error .uploadFailed := by
  have h := c7_error_surfacing
    ⟨⟨500, false, [], "body pol"⟩, ⟨500, "body up"⟩,
      ⟨500, "tid", "body post"⟩, [⟨500, "STARTED", "body poll"⟩]⟩
    ⟨"p1", "Common", "security", none, none, none, none, none, none,
      some false⟩
    emptyChanges ⟨500, "STARTED", "body poll"⟩ []
    (by decide) (by decide) (by decide) (by decide) (by decide)
  exact ⟨h.1, h.2.2.2.2.2.1⟩

/-- C1: when the named policy exists and force=false, a real (non-check)
run's only outward call is the existence GET — no file upload, no
import-task POST — and it reports changed=false. -/
theorem c1_exists_unforced_no_mutation (dev : Device) (w : Want)
    (hv : validSpec w) (hex : existsCond dev) (hf : w.force = some false) :
    exec_module false dev w =
      ⟨.ok (reportOf (changesOf w) false), [Effect.getPolicies]⟩ ∧
    noMutation (exec_module false dev w).effects ∧
    reportedChanged (exec_module false dev w) = some false := by
  have h : exec_module false dev w =
      ⟨.ok (reportOf (changesOf w) false), [Effect.getPolicies]⟩ := by
    simp [exec_module, policy_import, setChangedOptions_eq w hv,
      exists_eq_true dev hex, hf]
  refine ⟨h, ?_, ?_⟩ <;> rw [h]
  · intro e he
    rw [List.mem_singleton] at he
    rw [he]
    exact fun hx => hx
  · rfl

/-- Witness for C1 at a concrete spec and device. -/
theorem c1_exists_unforced_no_mutation_witness :
    reportedChanged (exec_module false
        ⟨⟨200, true, [⟨"lnk"⟩], "rl"⟩, ⟨200, "ru"⟩, ⟨200, "t1", "rp"⟩,
          [⟨200, "COMPLETED", "rs"⟩]⟩
        ⟨"p1", "Common", "security", none, none, none, some "<xml/>", none,
          none, some false⟩) = some false :=
  (c1_exists_unforced_no_mutation _ _ (by decide) (by decide) (by decide)).2.2

/-- C2: when the named policy exists and force=true, every payload POSTed to
the import-task endpoint carries `policyReference.link` — the existing
policy's selfLink — and no `name` key; this covers both the inline and the
file import path. -/
theorem c2_overwrite_payload (dev : Device) (w : Want)
    (hv : validSpec w) (hex : existsCond dev) (hf : w.force = some true) :
    ∀ p ∈ postedPayloads (exec_module false dev w).effects,
      p.name = none ∧
      p.policyReference =
        Option.map PolicyItem.selfLink dev.policies.items.head? ∧
      (Option.map PolicyItem.selfLink dev.policies.items.head?).isSome =
        true := by
  intro p hp
  have hset := setChangedOptions_eq w hv
  have hexq := exists_eq_true dev hex
  have hskip : ¬((true : Bool) = true ∧ w.force = some false) := by
    rintro ⟨-, hc⟩
    rw [hf] at hc
    cases hc
  have hw1 : resolveWant true w = w := rfl
  rw [exec_effects] at hp
  rcases hitems : dev.policies.items with _ | ⟨it, rest⟩
  · exact absurd hitems hex.2.2
  · have hlink := getPolicyLink_eq dev hex it rest hitems
    have hforce : truthyOpt w.force = true := by
      rw [hf]
      rfl
    have hmain : ∀ c, p ∈ postedPayloads (runTask dev w c).2 →
        p.name = none ∧ p.policyReference = some it.selfLink := by
      intro c hpc
      rcases mem_postedPayloads_runTask dev w c p hpc with
        ⟨hh, -⟩ | ⟨-, link, hl, rfl⟩
      · rw [hforce] at hh
        cases hh
      · rw [hlink] at hl
        injection hl with hl
        subst hl
        exact ⟨rfl, rfl⟩
    have hfin : p.name = none ∧ p.policyReference = some it.selfLink := by
      by_cases hinl : truthyStr w.inline = true
      · rw [policy_import_proceed_inline dev w (changesOf w) true hset hexq
          hskip (by rw [hw1]; exact hinl)] at hp
        dsimp only at hp
        exact hmain _
          (mem_postedPayloads_cons_gp _ _ (mem_postedPayloads_cons_gp _ _ hp))
      · rw [policy_import_proceed_file dev w (changesOf w) true hset hexq
          hskip (by rw [hw1]; exact bool_eq_false _ hinl)] at hp
        dsimp only at hp
        exact hmain _ (mem_postedPayloads_runFileImport _ _ _ p
          (mem_postedPayloads_cons_gp _ _ (mem_postedPayloads_cons_gp _ _ hp)))
    exact ⟨hfin.1, hfin.2, rfl⟩

/-- Witness for C2: the payload an inline overwrite actually POSTs carries
the link and no name. -/
theorem c2_overwrite_payload_witness :
    (⟨some "<xml/>", none, some "security", none, none, none, none, none,
        some "lnkB"⟩ : Payload).name = none ∧
    (⟨some "<xml/>", none, some "security", none, none, none, none, none,
        some "lnkB"⟩ : Payload).policyReference =
      Option.map PolicyItem.selfLink
        (⟨⟨200, true, [⟨"lnkB"⟩], "rl"⟩, ⟨200, "ru"⟩, ⟨200, "t1", "rp"⟩,
          [⟨200, "COMPLETED", "rs"⟩]⟩ : Device).policies.items.head? ∧
    (Option.map PolicyItem.selfLink
      (⟨⟨200, true, [⟨"lnkB"⟩], "rl"⟩, ⟨200, "ru"⟩, ⟨200, "t1", "rp"⟩,
        [⟨200, "COMPLETED", "rs"⟩]⟩ : Device).policies.items.head?).isSome =
      true :=
  c2_overwrite_payload
    ⟨⟨200, true, [⟨"lnkB"⟩], "rl"⟩, ⟨200, "ru"⟩, ⟨200, "t1", "rp"⟩,
      [⟨200, "COMPLETED", "rs"⟩]⟩
    ⟨"p1", "Common", "security", none, none, none, some "<xml/>", none,
      none, some true⟩
    (by decide) (by decide) (by decide)
    ⟨some "<xml/>", none, some "security", none, none, none, none, none,
      some "lnkB"⟩
    (by decide)

/-- C3: when the named policy is absent, the action is Create for either
force value: a `force=True` is cleared to `None` in the stored `want`, and
every payload POSTed carries the fully-qualified policy name and no
`policyReference`. -/
theorem c3_absent_always_create (dev : Device) (w : Want)
    (hv : validSpec w) (hab : absentCond dev)
    (hfor : w.force = some true ∨ w.force = some false) :
    (w.force = some true → (policy_import false dev w).want.force = none) ∧
    ∀ p ∈ postedPayloads (exec_module false dev w).effects,
      p.name = some (fq_name w.partition w.name) ∧
      p.policyReference = none := by
  have hset := setChangedOptions_eq w hv
  have hexq := exists_eq_false dev hab
  have hskip : ¬((false : Bool) = true ∧ w.force = some false) := by
    rintro ⟨hc, -⟩
    cases hc
  constructor
  · intro hf
    have hw1 : resolveWant false w = { w with force := none } := by
      unfold resolveWant
      have hcond : (false : Bool) = false ∧ w.force = some true := ⟨rfl, hf⟩
      rw [if_pos hcond]
    by_cases hinl : truthyStr (resolveWant false w).inline = true
    · rw [policy_import_proceed_inline dev w (changesOf w) false hset hexq
        hskip hinl]
      rw [hw1]
    · rw [policy_import_proceed_file dev w (changesOf w) false hset hexq
        hskip (bool_eq_false _ hinl)]
      rw [hw1]
  · intro p hp
    rw [exec_effects] at hp
    have hforce1 : truthyOpt (resolveWant false w).force = false := by
      unfold resolveWant
      rcases hfor with hf | hf
      · have hcond : (false : Bool) = false ∧ w.force = some true := ⟨rfl, hf⟩
        rw [if_pos hcond]
        rfl
      · have hcond : ¬((false : Bool) = false ∧ w.force = some true) := by
          rintro ⟨-, hc⟩
          rw [hf] at hc
          cases hc
        rw [if_neg hcond, hf]
        rfl
    have hname : ∀ c, p ∈ postedPayloads (runTask dev (resolveWant false w) c).2 →
        p.name = some (fq_name w.partition w.name) ∧
        p.policyReference = none := by
      intro c hpc
      rcases mem_postedPayloads_runTask dev (resolveWant false w) c p hpc with
        ⟨-, rfl⟩ | ⟨hh, -⟩
      · constructor
        · rw [(buildPayload_fields _ c).1, (resolveWant_fields false w).2.1,
            (resolveWant_fields false w).1]
        · exact (buildPayload_fields _ c).2.1
      · rw [hforce1] at hh
        cases hh
    by_cases hinl : truthyStr (resolveWant false w).inline = true
    · rw [policy_import_proceed_inline dev w (changesOf w) false hset hexq
        hskip hinl] at hp
      dsimp only at hp
      exact hname _
        (mem_postedPayloads_cons_gp _ _ (mem_postedPayloads_cons_gp _ _ hp))
    · rw [policy_import_proceed_file dev w (changesOf w) false hset hexq
        hskip (bool_eq_false _ hinl)] at hp
      dsimp only at hp
      exact hname _ (mem_postedPayloads_runFileImport _ _ _ p
        (mem_postedPayloads_cons_gp _ _ (mem_postedPayloads_cons_gp _ _ hp)))

/-- Witness for C3: with the policy absent and force=true, the stored force
is cleared and the POSTed payload names the policy. -/
theorem c3_absent_always_create_witness :
    ((policy_import false
        ⟨⟨200, true, [], "rl"⟩, ⟨200, "ru"⟩, ⟨200, "t1", "rp"⟩,
          [⟨200, "COMPLETED", "rs"⟩]⟩
        ⟨"p1", "Common", "security", none, none, none, some "<xml/>", none,
          none, some true⟩).want.force = none) ∧
    ∀ p ∈ postedPayloads (exec_module false
        ⟨⟨200, true, [], "rl"⟩, ⟨200, "ru"⟩, ⟨200, "t1", "rp"⟩,
          [⟨200, "COMPLETED", "rs"⟩]⟩
        ⟨"p1", "Common", "security", none, none, none, some "<xml/>", none,
          none, some true⟩).effects,
      p.name = some (fq_name "Common" "p1") ∧ p.policyReference = none :=
  ⟨(c3_absent_always_create _ _ (by decide) (by decide)
      (Or.inl (by decide))).1 (by decide),
    (c3_absent_always_create _ _ (by decide) (by decide)
      (Or.inl (by decide))).2⟩

/-- C5: for a run that reaches task submission (accepted policies GET,
accepted POST, not the exists-and-not-forced skip, a usable import path —
inline content, or a source file whose upload is accepted — and all poll
codes accepted), if the first terminal poll status is FAILURE the run raises
the task-failed error and returns no result dict, and if it is COMPLETED the
run returns normally with changed=true. -/
theorem c5_poll_terminal_outcomes (dev : Device) (w : Want)
    (hv : validSpec w)
    (hpath : truthyStr w.inline = true ∨
      (truthyStr w.inline = false ∧ (∃ src, w.source = some src) ∧
        dev.upload.code ∈ okCodes))
    (hpol : dev.policies.code ∈ okCodes)
    (hpost : dev.taskPost.code ∈ okCodes)
    (hpolls : ∀ r ∈ dev.polls, r.code ∈ okCodes)
    (hno : ¬(existsCond dev ∧ w.force = some false)) :
    (firstTerminal dev.polls = some "FAILURE" →
      (exec_module false dev w).outcome = .error .taskFailed) ∧
    (firstTerminal dev.polls = some "COMPLETED" →
      reportedChanged (exec_module false dev w) = some true) := by
  have hset := setChangedOptions_eq w hv
  have hmain : ∀ ex2 : Bool,
      ModuleManager.exists_ dev = .ok ex2 →
      ¬(ex2 = true ∧ w.force = some false) →
      (truthyOpt (resolveWant ex2 w).force = false ∨
        ∃ link, getPolicyLink dev = .ok link) →
      (firstTerminal dev.polls = some "FAILURE" →
        (exec_module false dev w).outcome = .error .taskFailed) ∧
      (firstTerminal dev.polls = some "COMPLETED" →
        reportedChanged (exec_module false dev w) = some true) := by
    intro ex2 hexq hskip hforce
    have hout : (policy_import false dev w).outcome =
        (match (wait_for_task dev.polls).1 with
          | .completed => RunOutcome.ok true
          | .taskFailed => RunOutcome.error .taskFailed
          | .badCode raw => RunOutcome.error (.remote raw)
          | .ranOut => RunOutcome.hangs) := by
      rcases hpath with hinl | ⟨hinlf, ⟨src, hsrc⟩, hu⟩
      · have hinl2 : truthyStr (resolveWant ex2 w).inline = true := by
          rw [(resolveWant_fields ex2 w).2.2.2.2.1]
          exact hinl
        rw [policy_import_proceed_inline dev w (changesOf w) ex2 hset
          hexq hskip hinl2]
        exact runTask_outcome dev (resolveWant ex2 w) (changesOf w)
          hpost hforce
      · have hinl2 : truthyStr (resolveWant ex2 w).inline = false := by
          rw [(resolveWant_fields ex2 w).2.2.2.2.1]
          exact hinlf
        have hsrc2 : (resolveWant ex2 w).source = some src := by
          rw [(resolveWant_fields ex2 w).2.2.2.2.2]
          exact hsrc
        rw [policy_import_proceed_file dev w (changesOf w) ex2 hset
          hexq hskip hinl2]
        dsimp only
        rw [runFileImport_outcome dev (resolveWant ex2 w) _ src hsrc2 hu]
        exact runTask_outcome dev (resolveWant ex2 w) _ hpost hforce
    constructor
    · intro hfail
      have hwt := wait_first_failure dev.polls hpolls hfail
      refine exec_outcome_error false dev w _ ?_
      rw [hout, hwt]
    · intro hcomp
      have hwt := wait_first_completed dev.polls hpolls hcomp
      have hok : (policy_import false dev w).outcome = .ok true := by
        rw [hout, hwt]
      unfold reportedChanged
      rw [exec_outcome_ok false dev w true hok]
      rfl
  by_cases hit : dev.policies.hasItems = true ∧ dev.policies.items ≠ []
  · have hex : existsCond dev := ⟨hpol, hit.1, hit.2⟩
    refine hmain true (exists_eq_true dev hex) ?_ ?_
    · rintro ⟨-, hc⟩
      exact hno ⟨hex, hc⟩
    · rcases hitems : dev.policies.items with _ | ⟨it, rest⟩
      · exact absurd hitems hit.2
      · exact Or.inr ⟨it.selfLink, getPolicyLink_eq dev hex it rest hitems⟩
  · refine hmain false (exists_eq_false dev ⟨hpol, hit⟩) ?_ (Or.inl ?_)
    · rintro ⟨hc, -⟩
      cases hc
    · unfold resolveWant
      by_cases hc : (false : Bool) = false ∧ w.force = some true
      · rw [if_pos hc]
        rfl
      · rw [if_neg hc]
        cases hfv : w.force with
        | none => rfl
        | some b =>
          cases b
          · rfl
          · exact absurd ⟨rfl, hfv⟩ hc

/-- Witness for C5: with the policy absent, an inline run whose polls end in
FAILURE raises the task-failed error. -/
theorem c5_poll_terminal_outcomes_witness :
    (exec_module false
        ⟨⟨200, false, [], "rl"⟩, ⟨200, "ru"⟩, ⟨200, "t1", "rp"⟩,
          [⟨200, "STARTED", "r0"⟩, ⟨200, "FAILURE", "r1"⟩]⟩
        ⟨"p1", "Common", "security", none, none, none, some "<xml/>", none,
          none, some false⟩).outcome = .error .taskFailed :=
  (c5_poll_terminal_outcomes _ _ (by decide) (Or.inl (by decide))
    (by decide) (by decide) (by decide) (by decide)).1 (by decide)

/-- C9 counterexample: for a file-based spec (inline unset) whose policy
exists with force=false, the run skips before `_clear_changes`, so the
reported result still carries policy_type, base64 and encoding — the claim's
"the reported result omits these fields for every file-based spec" fails. -/
theorem c9_counterexample :
    ((⟨"p1", "Common", "security", none, none, some true, none, some "utf-8",
        some "/tmp/a.xml", some false⟩ : Want).inline = none) ∧
    (exec_module false
        ⟨⟨200, true, [⟨"lnk"⟩], "rl"⟩, ⟨200, "ru"⟩, ⟨200, "t1", "rp"⟩, []⟩
        ⟨"p1", "Common", "security", none, none, some true, none,
          some "utf-8", some "/tmp/a.xml", some false⟩).outcome =
      .ok ⟨some "p1", none, some "/tmp/a.xml", some false, some "security",
        none, none, some "yes", some "utf-8", false⟩ ∧
    (some "security" : Option String) ≠ none ∧
    (some "yes" : Option String) ≠ none := by
  decide

/-- C9 amended: for a file-based spec (inline unset), any run that actually
proceeds to an import (not check mode, not the exists-and-not-forced skip)
POSTs payloads without policyType, retainInheritanceSettings, parentPolicy,
isBase64 and applicationLanguage, and reports a result without policy_type,
retain_inheritance_settings, parent_policy, base64 and encoding; inline
imports keep all of those fields in the POSTed payload. -/
theorem c9_file_import_clears_redundant (dev : Device) (w : Want)
    (hin : w.inline = none)
    (hskip : ¬(existsCond dev ∧ w.force = some false)) :
    (∀ p ∈ postedPayloads (exec_module false dev w).effects,
      p.policyType = none ∧ p.retainInheritanceSettings = none ∧
      p.parentPolicy = none ∧ p.isBase64 = none ∧
      p.applicationLanguage = none) ∧
    (∀ r, (exec_module false dev w).outcome = .ok r →
      r.policy_type = none ∧ r.retain_inheritance_settings = none ∧
      r.parent_policy = none ∧ r.base64 = none ∧ r.encoding = none) ∧
    (∀ dev2 w2, validSpec w2 → truthyStr w2.inline = true →
      ∀ p ∈ postedPayloads (exec_module false dev2 w2).effects,
        p.file = w2.inline ∧ p.policyType = some w2.policy_type ∧
        p.retainInheritanceSettings =
          ModuleParameters.retain_inheritance_settings w2 ∧
        p.parentPolicy = ppOf w2 ∧
        p.isBase64 = ModuleParameters.base64 w2 ∧
        p.applicationLanguage = w2.encoding) := by
  refine ⟨?_, ?_, ?_⟩
  · intro p hp
    rw [exec_effects] at hp
    cases hset : setChangedOptions w with
    | error e =>
      rw [policy_import_set_error false dev w e hset] at hp
      simp [postedPayloads] at hp
    | ok ch =>
      cases hex : ModuleManager.exists_ dev with
      | error e =>
        rw [policy_import_exists_error dev w ch e hset hex] at hp
        simp [postedPayloads] at hp
      | ok ex2 =>
        have hskip2 : ¬(ex2 = true ∧ w.force = some false) := by
          rintro ⟨rfl, hc⟩
          exact hskip ⟨exists_ok_true_cond dev hex, hc⟩
        have hinl2 : truthyStr (resolveWant ex2 w).inline = false := by
          rw [(resolveWant_fields ex2 w).2.2.2.2.1, hin]
          rfl
        rw [policy_import_proceed_file dev w ch ex2 hset hex hskip2 hinl2] at hp
        dsimp only at hp
        have hp2 := mem_postedPayloads_runFileImport _ _ _ p
          (mem_postedPayloads_cons_gp _ _ (mem_postedPayloads_cons_gp _ _ hp))
        rcases mem_postedPayloads_runTask _ _ _ p hp2 with
          ⟨-, rfl⟩ | ⟨-, link, -, rfl⟩
        · exact ⟨(buildPayload_fields _ _).2.2.2.1,
            (buildPayload_fields _ _).2.2.2.2.1,
            (buildPayload_fields _ _).2.2.2.2.2.1,
            (buildPayload_fields _ _).2.2.2.2.2.2.1,
            (buildPayload_fields _ _).2.2.2.2.2.2.2⟩
        · exact ⟨(buildPayload_fields _ _).2.2.2.1,
            (buildPayload_fields _ _).2.2.2.2.1,
            (buildPayload_fields _ _).2.2.2.2.2.1,
            (buildPayload_fields _ _).2.2.2.2.2.2.1,
            (buildPayload_fields _ _).2.2.2.2.2.2.2⟩
  · intro r hr
    cases hset : setChangedOptions w with
    | error e =>
      rw [exec_outcome_error false dev w e
        (by rw [policy_import_set_error false dev w e hset])] at hr
      cases hr
    | ok ch =>
      cases hex : ModuleManager.exists_ dev with
      | error e =>
        rw [exec_outcome_error false dev w e
          (by rw [policy_import_exists_error dev w ch e hset hex])] at hr
        cases hr
      | ok ex2 =>
        have hskip2 : ¬(ex2 = true ∧ w.force = some false) := by
          rintro ⟨rfl, hc⟩
          exact hskip ⟨exists_ok_true_cond dev hex, hc⟩
        have hinl2 : truthyStr (resolveWant ex2 w).inline = false := by
          rw [(resolveWant_fields ex2 w).2.2.2.2.1, hin]
          rfl
        have hpi := policy_import_proceed_file dev w ch ex2 hset hex
          hskip2 hinl2
        cases ho : (runFileImport dev (resolveWant ex2 w)
            (clearedOf (resolveWant ex2 w))).1 with
        | ok b =>
          have hok : (policy_import false dev w).outcome = .ok b := by
            rw [hpi, ho]
          rw [exec_outcome_ok false dev w b hok, hpi] at hr
          injection hr with hr
          rw [← hr]
          exact ⟨rfl, rfl, rfl, rfl, rfl⟩
        | error e =>
          rw [exec_outcome_error false dev w e (by rw [hpi, ho])] at hr
          cases hr
        | hangs =>
          rw [exec_outcome_hangs false dev w (by rw [hpi, ho])] at hr
          cases hr
  · intro dev2 w2 hv2 hinl2 p hp
    have hset2 := setChangedOptions_eq w2 hv2
    rw [exec_effects] at hp
    cases hex : ModuleManager.exists_ dev2 with
    | error e =>
      rw [policy_import_exists_error dev2 w2 (changesOf w2) e hset2 hex] at hp
      simp [postedPayloads] at hp
    | ok ex2 =>
      by_cases hskip2 : ex2 = true ∧ w2.force = some false
      · rw [policy_import_skip dev2 w2 (changesOf w2) hset2
          (hskip2.1 ▸ hex) hskip2.2] at hp
        simp [postedPayloads] at hp
      · have hinl3 : truthyStr (resolveWant ex2 w2).inline = true := by
          rw [(resolveWant_fields ex2 w2).2.2.2.2.1]
          exact hinl2
        rw [policy_import_proceed_inline dev2 w2 (changesOf w2) ex2 hset2
          hex hskip2 hinl3] at hp
        dsimp only at hp
        have hp2 := mem_postedPayloads_cons_gp _ _
          (mem_postedPayloads_cons_gp _ _ hp)
        rcases mem_postedPayloads_runTask _ _ _ p hp2 with
          ⟨-, rfl⟩ | ⟨-, link, -, rfl⟩
        · exact ⟨(buildPayload_fields _ _).2.2.1,
            (buildPayload_fields _ _).2.2.2.1,
            (buildPayload_fields _ _).2.2.2.2.1,
            (buildPayload_fields _ _).2.2.2.2.2.1,
            (buildPayload_fields _ _).2.2.2.2.2.2.1,
            (buildPayload_fields _ _).2.2.2.2.2.2.2⟩
        · exact ⟨(buildPayload_fields _ _).2.2.1,
            (buildPayload_fields _ _).2.2.2.1,
            (buildPayload_fields _ _).2.2.2.2.1,
            (buildPayload_fields _ _).2.2.2.2.2.1,
            (buildPayload_fields _ _).2.2.2.2.2.2.1,
            (buildPayload_fields _ _).2.2.2.2.2.2.2⟩

/-- Witness for C9: the result a forced file import actually reports omits
all five redundant fields. -/
theorem c9_file_import_clears_redundant_witness :
    (⟨some "p1", none, some "/tmp/a.xml", some true, none, none, none, none,
        none, true⟩ : Report).policy_type = none ∧
    (⟨some "p1", none, some "/tmp/a.xml", some true, none, none, none, none,
        none, true⟩ : Report).retain_inheritance_settings = none ∧
    (⟨some "p1", none, some "/tmp/a.xml", some true, none, none, none, none,
        none, true⟩ : Report).parent_policy = none ∧
    (⟨some "p1", none, some "/tmp/a.xml", some true, none, none, none, none,
        none, true⟩ : Report).base64 = none ∧
    (⟨some "p1", none, some "/tmp/a.xml", some true, none, none, none, none,
        none, true⟩ : Report).encoding = none :=
  (c9_file_import_clears_redundant
    ⟨⟨200, true, [⟨"lnk"⟩], "rl"⟩, ⟨200, "ru"⟩, ⟨200, "t1", "rp"⟩,
      [⟨200, "COMPLETED", "rs"⟩]⟩
    ⟨"p1", "Common", "security", some true, none, some true, none,
      some "utf-8", some "/tmp/a.xml", some true⟩
    (by decide) (by decide)).2.1
    ⟨some "p1", none, some "/tmp/a.xml", some true, none, none, none, none,
      none, true⟩
    (by decide)

end BigipAsm
